import Mathlib

/-!
Verification of the `criticalityscore` repository (Go).

The Go sources under `criticalityscore/` (score.go, utils.go, constants) are
shallowly embedded below.  Conventions:

* Go `float64` computations are modelled over `ℝ` (IEEE rounding error is not
  modelled); a separate `Option ℝ` model (`FR`) tracks non-finite values
  (NaN/±Inf) where a claim is about them.
* Go `int`/`int64` are modelled by `ℤ` (no claim exercises machine overflow).
* Timestamps and `time.Duration` values are integer nanosecond counts (`ℤ`),
  exactly as in Go, where `time.Since(t) = now - t` in nanoseconds.
* Go strings are Lean `String`s; `strings.Split` is re-implemented over rune
  lists (`goSplit`) because the Go callers split on ASCII separators, where
  byte-wise and rune-wise splitting agree.
* A Go panic (out-of-range index / slice) is modelled by `Option.none`.
* Fallible calls returning `(T, error)` are modelled by `Except`.
-/

set_option maxRecDepth 100000

/-! ## Generic Go string helpers -/

/-- Rune-level helper: if `ps` is a prefix of `cs`, return the remainder. -/
def dropPrefixCh : List Char → List Char → Option (List Char)
  | [], cs => some cs
  | _ :: _, [] => none
  | p :: ps, c :: cs => if c = p then dropPrefixCh ps cs else none

/-- Core of `goSplit`: scan `l`, emitting the accumulator whenever the
separator `sep1 :: sepRest` occurs.  Mirrors Go `strings.Split` for a
non-empty separator.  The `fuel` argument only makes the recursion
structural (each step consumes at least one character, so `l.length`
fuel is always enough; the `0` branch is unreachable from `goSplit`). -/
def goSplitAux (sep1 : Char) (sepRest : List Char) :
    Nat → List Char → List Char → List (List Char)
  | _, acc, [] => [acc.reverse]
  | 0, acc, l => [acc.reverse ++ l]
  | fuel + 1, acc, c :: cs =>
    if c = sep1 then
      match dropPrefixCh sepRest cs with
      | some rest => acc.reverse :: goSplitAux sep1 sepRest fuel [] rest
      | none => goSplitAux sep1 sepRest fuel (c :: acc) cs
    else goSplitAux sep1 sepRest fuel (c :: acc) cs

/-- Go `strings.Split(s, sep)` for the non-empty separators used in this
repository ("," ":" "; " ", " "&" "=").  (Go's empty-separator behaviour is
never exercised; we return `[s]` there.) -/
def goSplit (sep : String) (s : String) : List String :=
  match sep.toList with
  | [] => [s]
  | c :: cs => (goSplitAux c cs s.toList.length [] s.toList).map (fun l => String.mk l)

/-- Go `substr` helper from utils.go (rune-based slicing with the two
`end` adjustments).  The callers only use `start ∈ {1, 5}` and `end = -1`;
for those the Go slice `asRunes[start:end]` is in range, which the
`drop/take` below reproduces exactly. -/
def substr (input : String) (start en : Int) : String :=
  let asRunes := input.toList
  let n : Int := asRunes.length
  if start ≥ n then ""
  else
    let en1 := if en > n then n - 1 else en
    let en2 := if en1 ≤ 0 then n + en1 else en1
    String.mk ((asRunes.drop start.toNat).take (en2 - start).toNat)

/-- Go `strings.ToLower` restricted to ASCII (every caller in this
repository feeds ASCII organisation names; Unicode case folding is not
modelled). -/
def goToLower (s : String) : String :=
  String.mk (s.toList.map Char.toLower)

/-- Go `strconv.Atoi`: optional sign followed by at least one decimal digit,
nothing else.  (The `int` range check is not modelled; no claim exercises
overflow.) -/
def goAtoi (s : String) : Option Int :=
  match s.toList with
  | [] => none
  | cs =>
    let (neg, ds) : Bool × List Char :=
      match cs with
      | '+' :: r => (false, r)
      | '-' :: r => (true, r)
      | r => (false, r)
    match ds with
    | [] => none
    | _ =>
      if ds.all Char.isDigit then
        let v : Nat := ds.foldl (fun a c => 10 * a + (c.toNat - 48)) 0
        some (if neg then -(v : Int) else (v : Int))
      else none

/-! ## utils.go: parseLinkHeader / totalCount -/

/-- `parseLinkHeader` from utils.go.  The input is the value of the
response's `link` header (`header.Get("link")` in Go).  Entries are
accumulated most-recent-first so that `List.lookup` reproduces the
overwrite semantics of the Go map. -/
def parseLinkHeader (link : String) : List (String × String) :=
  (goSplit ", " link).foldl
    (fun links linkHeader =>
      match goSplit "; " linkHeader with
      | a :: b :: _ => (substr b 5 (-1), substr a 1 (-1)) :: links
      | _ => links)
    []

/-- Whether a URL string contains an ASCII control character — the condition
under which Go `url.Parse` fails for the URLs reaching `totalCount`
(host/scheme validation failures are not modelled; the pagination URLs that
reach this code are plain https URLs). -/
def hasCtl (s : String) : Bool :=
  s.toList.any (fun c => c.toNat < 32 ∨ c.toNat = 127)

/-- `u.RawQuery` of Go `url.Parse`: the part after the first `?`, with the
fragment (everything from the first `#`) removed first. -/
def rawQueryOf (s : String) : String :=
  let beforeFrag :=
    match goSplit "#" s with
    | [] => ""
    | h :: _ => h
  match goSplit "?" beforeFrag with
  | [] => ""
  | _ :: rest => String.intercalate "?" rest

/-- Go `url.ParseQuery` (percent-decoding is not modelled — the pagination
query strings contain none): split on `&`, skip empty segments and segments
containing `;`, split each pair at the first `=`. -/
def queryPairs (raw : String) : List (String × String) :=
  (goSplit "&" raw).filterMap (fun seg =>
    if seg = "" then none
    else if seg.toList.contains ';' then none
    else
      match goSplit "=" seg with
      | [] => none
      | k :: vs => some (k, String.intercalate "=" vs))

/-- `Values.Get` of Go `net/url`: first value for the key, `""` if absent. -/
def queryGet (raw : String) (key : String) : String :=
  ((queryPairs raw).lookup key).getD ""

/-- `totalCount` from utils.go: page number of the `page` query parameter of
the `last` pagination link; `0` whenever the link is missing, the URL does
not parse, or the parameter is not an integer. -/
def totalCount (linkHeader : String) : Int :=
  let links := parseLinkHeader linkHeader
  match links.lookup "last" with
  | none => 0
  | some lastURL =>
    if hasCtl lastURL then 0
    else
      match goAtoi (queryGet (rawQueryOf lastURL) "page") with
      | none => 0
      | some pageCount => pageCount

/-! ## utils.go: filterOrgName -/

/-- The `strings.NewReplacer("inc.", "", "llc", "", "@", "", " ", "")`
replacement pass: at each position the patterns are tried in argument
order, a match is deleted and scanning resumes after it. -/
def goReplaceOrg : List Char → List Char
  | 'i' :: 'n' :: 'c' :: '.' :: cs => goReplaceOrg cs
  | 'l' :: 'l' :: 'c' :: cs => goReplaceOrg cs
  | '@' :: cs => goReplaceOrg cs
  | ' ' :: cs => goReplaceOrg cs
  | c :: cs => c :: goReplaceOrg cs
  | [] => []

/-- Go `strings.TrimRight(s, ",")`: remove every trailing comma. -/
def trimRightCommas (s : String) : String :=
  String.mk (s.toList.reverse.dropWhile (fun c => c = ',')).reverse

/-- `filterOrgName` from utils.go. -/
def filterOrgName (orgName : String) : String :=
  let name := goToLower orgName
  let name := String.mk (goReplaceOrg name.toList)
  trimRightCommas name

example : filterOrgName "Acme Inc." = "acme" := by decide
example : filterOrgName "ACME, LLC" = "acme" := by decide
example : filterOrgName "@Acme" = "acme" := by decide
example : filterOrgName "Acme " = "acme" := by decide

example :
    totalCount "<https://api.github.com/repositories/1/contributors?per_page=1&page=2>; rel=\"next\", <https://api.github.com/repositories/1/contributors?per_page=1&page=42>; rel=\"last\"" = 42 := by
  decide

/-! ## constants.go: weights and thresholds -/

def CreatedSinceWeight : ℝ := 1.0
def UpdatedSinceWeight : ℝ := -1.0
def ContributorCountWeight : ℝ := 2.0
def OrgCountWeight : ℝ := 1.0
def CommitFrequencyWeight : ℝ := 1.0
def RecentReleasesWeight : ℝ := 0.5
def ClosedIssuesWeight : ℝ := 0.5
def UpdatedIssuesWeight : ℝ := 0.5
def CommentFrequencyWeight : ℝ := 1.0
def DependentsCountWeight : ℝ := 2.0

def CreatedSinceThreshold : ℝ := 120.0
def UpdatedSinceThreshold : ℝ := 120.0
def ContributorCountThreshold : ℝ := 5000.0
def OrgCountThreshold : ℝ := 10.0
def CommitFrequencyThreshold : ℝ := 1000.0
def RecentReleasesThreshold : ℝ := 26.0
def ClosedIssuesThreshold : ℝ := 5000.0
def UpdatedIssuesThreshold : ℝ := 5000.0
def CommentFrequencyThreshold : ℝ := 15.0
def DependentsCountThreshold : ℝ := 500000.0

def TopContributorCount : Nat := 15
def IssueLookbackDays : Nat := 90
def ReleaseLookbackDays : Nat := 365

/-! ## score.go: ParamScore and the aggregation formula (real-valued model) -/

/-- Go `math.Round`: nearest integer, rounding half away from zero. -/
noncomputable def goRound (x : ℝ) : ℝ :=
  if 0 ≤ x then ((⌊x + 1 / 2⌋ : ℤ) : ℝ) else ((⌈x - 1 / 2⌉ : ℤ) : ℝ)

/-- `ParamScore` from score.go.  The Go function takes `interface{}` and
reads `p` from a `float64` or `int`; every call site passes one of those,
so the model takes the numeric value directly as a real. -/
noncomputable def ParamScore (p maxValue weight : ℝ) : ℝ :=
  Real.log (1.0 + p) / Real.log (1.0 + max p maxValue) * weight

/-- The `Score` metric fields populated by the nine providers
(identity/timestamp fields are not part of any claim). -/
structure MetricSet where
  createdSince : ℤ
  updatedSince : ℤ
  contributorCount : ℤ
  orgCount : ℤ
  commitFrequency : ℝ
  recentReleasesCount : ℤ
  closedIssuesCount : ℤ
  updatedIssuesCount : ℤ
  commentFrequency : ℝ
  dependentsCount : ℤ

/-- An already-parsed `AdditionalParam` (all three Go fields are `float64`). -/
structure AdditionalParamR where
  value : ℝ
  weight : ℝ
  maxThreshold : ℝ

/-- Lines 80–86 of score.go: total weight of the additional parameters. -/
noncomputable def additionalParamsTotalWeight (aps : List AdditionalParamR) : ℝ :=
  aps.foldl (fun acc ap => acc + ap.weight) 0.0

/-- Lines 80–86 of score.go: summed normalized scores of the additional
parameters. -/
noncomputable def additionalParamsScore (aps : List AdditionalParamR) : ℝ :=
  aps.foldl (fun acc ap => acc + ParamScore ap.value ap.maxThreshold ap.weight) 0.0

/-- Lines 149–166 of score.go: the final `CriticalityScore` as a function of
the collected metrics and the parsed additional parameters. -/
noncomputable def criticalityScore (m : MetricSet) (aps : List AdditionalParamR) : ℝ :=
  let totalWeight := CreatedSinceWeight + UpdatedSinceWeight +
    ContributorCountWeight + OrgCountWeight +
    CommitFrequencyWeight + RecentReleasesWeight +
    ClosedIssuesWeight + UpdatedIssuesWeight +
    CommentFrequencyWeight + DependentsCountWeight +
    additionalParamsTotalWeight aps
  goRound ((ParamScore m.createdSince CreatedSinceThreshold CreatedSinceWeight +
    ParamScore m.updatedSince UpdatedSinceThreshold UpdatedSinceWeight +
    ParamScore m.contributorCount ContributorCountThreshold ContributorCountWeight +
    ParamScore m.orgCount OrgCountThreshold OrgCountWeight +
    ParamScore m.commitFrequency CommitFrequencyThreshold CommitFrequencyWeight +
    ParamScore m.recentReleasesCount RecentReleasesThreshold RecentReleasesWeight +
    ParamScore m.closedIssuesCount ClosedIssuesThreshold ClosedIssuesWeight +
    ParamScore m.updatedIssuesCount UpdatedIssuesThreshold UpdatedIssuesWeight +
    ParamScore m.commentFrequency CommentFrequencyThreshold CommentFrequencyWeight +
    ParamScore m.dependentsCount DependentsCountThreshold DependentsCountWeight +
    additionalParamsScore aps) / totalWeight * 100000) / 100000

/-- The weighted entries `(value, saturation threshold, weight)` that the
spec's aggregation rule ranges over: the fixed per-metric table followed by
the additional parameters. -/
noncomputable def specEntries (m : MetricSet) (aps : List AdditionalParamR) :
    List (ℝ × ℝ × ℝ) :=
  [((m.createdSince : ℝ), CreatedSinceThreshold, CreatedSinceWeight),
   ((m.updatedSince : ℝ), UpdatedSinceThreshold, UpdatedSinceWeight),
   ((m.contributorCount : ℝ), ContributorCountThreshold, ContributorCountWeight),
   ((m.orgCount : ℝ), OrgCountThreshold, OrgCountWeight),
   (m.commitFrequency, CommitFrequencyThreshold, CommitFrequencyWeight),
   ((m.recentReleasesCount : ℝ), RecentReleasesThreshold, RecentReleasesWeight),
   ((m.closedIssuesCount : ℝ), ClosedIssuesThreshold, ClosedIssuesWeight),
   ((m.updatedIssuesCount : ℝ), UpdatedIssuesThreshold, UpdatedIssuesWeight),
   (m.commentFrequency, CommentFrequencyThreshold, CommentFrequencyWeight),
   ((m.dependentsCount : ℝ), DependentsCountThreshold, DependentsCountWeight)] ++
  aps.map (fun ap => (ap.value, ap.maxThreshold, ap.weight))

/-- Aggregation as the amended spec sentence reads: sum the normalized
scores of all entries, divide by the sum of all weights in play, and round
the quotient to 5 decimal places, half away from zero. -/
noncomputable def specAggregate (m : MetricSet) (aps : List AdditionalParamR) : ℝ :=
  let entries := specEntries m aps
  goRound (((entries.map (fun e => ParamScore e.1 e.2.1 e.2.2)).sum /
    (entries.map (fun e => e.2.2)).sum) * 100000) / 100000

/-- Aggregation as the claim literally reads: additionally multiply the
quotient by 100 before rounding to 5 decimal places. -/
noncomputable def claimAggregate (m : MetricSet) (aps : List AdditionalParamR) : ℝ :=
  let entries := specEntries m aps
  goRound (((entries.map (fun e => ParamScore e.1 e.2.1 e.2.2)).sum /
    (entries.map (fun e => e.2.2)).sum) * 100 * 100000) / 100000

/-! ## Facts about ParamScore and goRound -/

theorem ParamScore_zero (maxValue weight : ℝ) : ParamScore 0 maxValue weight = 0 := by
  unfold ParamScore
  norm_num

theorem ParamScore_eq_weight {p maxValue : ℝ} (weight : ℝ)
    (hm : 0 < maxValue) (hpm : maxValue ≤ p) :
    ParamScore p maxValue weight = weight := by
  unfold ParamScore
  rw [max_eq_left hpm, div_self, one_mul]
  exact ne_of_gt (Real.log_pos (by linarith))

theorem ParamScore_le_weight {p maxValue weight : ℝ}
    (hp : 0 ≤ p) (hm : 0 < maxValue) (hw : 0 < weight) :
    ParamScore p maxValue weight ≤ weight := by
  unfold ParamScore
  have hmax : maxValue ≤ max p maxValue := le_max_right p maxValue
  have hd : 0 < Real.log (1.0 + max p maxValue) := Real.log_pos (by linarith)
  have hn : Real.log (1.0 + p) ≤ Real.log (1.0 + max p maxValue) := by
    apply Real.log_le_log (by linarith)
    have := le_max_left p maxValue
    linarith
  calc Real.log (1.0 + p) / Real.log (1.0 + max p maxValue) * weight
      ≤ 1 * weight := by
        apply mul_le_mul_of_nonneg_right _ hw.le
        exact (div_le_one hd).mpr hn
    _ = weight := one_mul weight

theorem ParamScore_lt_weight {p maxValue weight : ℝ}
    (hp : 0 ≤ p) (hpm : p < maxValue) (hw : 0 < weight) :
    ParamScore p maxValue weight < weight := by
  unfold ParamScore
  rw [max_eq_right hpm.le]
  have hd : 0 < Real.log (1.0 + maxValue) := Real.log_pos (by linarith)
  have hn : Real.log (1.0 + p) < Real.log (1.0 + maxValue) :=
    Real.log_lt_log (by linarith) (by linarith)
  calc Real.log (1.0 + p) / Real.log (1.0 + maxValue) * weight
      < 1 * weight := by
        apply mul_lt_mul_of_pos_right _ hw
        exact (div_lt_one hd).mpr hn
    _ = weight := one_mul weight

theorem ParamScore_mono {p p' maxValue weight : ℝ}
    (hp : 0 ≤ p) (hpp : p ≤ p') (hm : 0 < maxValue) (hw : 0 < weight) :
    ParamScore p maxValue weight ≤ ParamScore p' maxValue weight := by
  rcases le_or_lt p' maxValue with h | h
  · unfold ParamScore
    rw [max_eq_right (hpp.trans h), max_eq_right h]
    have hd : 0 < Real.log (1.0 + maxValue) := Real.log_pos (by linarith)
    apply mul_le_mul_of_nonneg_right _ hw.le
    apply (div_le_div_iff_of_pos_right hd).mpr
    apply Real.log_le_log (by linarith)
    linarith
  · rw [ParamScore_eq_weight weight hm h.le]
    exact ParamScore_le_weight hp hm hw

theorem goRound_eq_intCast {x : ℝ} (n : ℤ) (h0 : 0 ≤ x)
    (h1 : (n : ℝ) ≤ x + 1 / 2) (h2 : x + 1 / 2 < n + 1) :
    goRound x = (n : ℝ) := by
  unfold goRound
  rw [if_pos h0]
  congr 1
  have h2' : x + 1 / 2 < (n : ℝ) + 1 := by exact_mod_cast h2
  exact Int.floor_eq_iff.mpr ⟨h1, h2'⟩

/-- Folding `+ f x` over a list is adding the sum of the mapped list. -/
theorem foldl_add_map {α : Type} (f : α → ℝ) (a : ℝ) (l : List α) :
    l.foldl (fun acc x => acc + f x) a = a + (l.map f).sum := by
  induction l generalizing a with
  | nil => simp
  | cons x xs ih => simp [ih]; ring

/-- C1 (amended) theorem below is stated against this fixed metric record. -/
def exMetrics : MetricSet := ⟨120, 0, 0, 0, 0, 0, 0, 0, 0, 0⟩

/-- C1 counterexample: with `CreatedSince = 120` (its saturation threshold)
and every other metric zero, the code's score is `round5(1 / 8.5) = 0.11765`,
while the claim's formula (with the extra factor 100) gives `11.76471`; the
code never multiplies the quotient by 100. -/
theorem criticality_times100_refuted :
    criticalityScore exMetrics [] = 11765 / 100000 ∧
    claimAggregate exMetrics [] = 1176471 / 100000 ∧
    criticalityScore exMetrics [] ≠ claimAggregate exMetrics [] := by
  have h120 : ParamScore ((120:ℤ):ℝ) CreatedSinceThreshold CreatedSinceWeight = 1 := by
    have : ((120:ℤ):ℝ) = (120:ℝ) := by norm_num
    rw [this, ParamScore_eq_weight CreatedSinceWeight (by norm_num [CreatedSinceThreshold])
      (by norm_num [CreatedSinceThreshold])]
    norm_num [CreatedSinceWeight]
  have hz : ∀ t w : ℝ, ParamScore ((0:ℤ):ℝ) t w = 0 := by
    intro t w
    rw [show ((0:ℤ):ℝ) = (0:ℝ) by norm_num, ParamScore_zero]
  have e1 : criticalityScore exMetrics [] = 11765 / 100000 := by
    simp only [criticalityScore, exMetrics, additionalParamsScore,
      additionalParamsTotalWeight, List.foldl_nil, h120, hz, ParamScore_zero]
    norm_num [CreatedSinceWeight, UpdatedSinceWeight, ContributorCountWeight,
      OrgCountWeight, CommitFrequencyWeight, RecentReleasesWeight, ClosedIssuesWeight,
      UpdatedIssuesWeight, CommentFrequencyWeight, DependentsCountWeight]
    rw [goRound_eq_intCast 11765 (by norm_num) (by norm_num) (by norm_num)]
    norm_num
  have e2 : claimAggregate exMetrics [] = 1176471 / 100000 := by
    simp only [claimAggregate, specEntries, exMetrics, List.map_append, List.sum_append,
      List.map_cons, List.sum_cons, List.map_nil, List.sum_nil, h120, hz, ParamScore_zero]
    norm_num [CreatedSinceWeight, UpdatedSinceWeight, ContributorCountWeight,
      OrgCountWeight, CommitFrequencyWeight, RecentReleasesWeight, ClosedIssuesWeight,
      UpdatedIssuesWeight, CommentFrequencyWeight, DependentsCountWeight]
    rw [goRound_eq_intCast 1176471 (by norm_num) (by norm_num) (by norm_num)]
    norm_num
  refine ⟨e1, e2, ?_⟩
  rw [e1, e2]
  norm_num

/-- C1 (amended): for every metric record and every list of parsed
additional parameters, the code's `CriticalityScore` equals the spec's
aggregation rule without the factor 100: sum of all normalized scores,
divided by the sum of all weights in play, rounded to 5 decimal places
half away from zero. -/
theorem criticality_aggregation (m : MetricSet) (aps : List AdditionalParamR) :
    criticalityScore m aps = specAggregate m aps := by
  have key : ∀ x y : ℝ, x = y → goRound x / 100000 = goRound y / 100000 := by
    intro x y hxy; rw [hxy]
  simp only [criticalityScore, specAggregate, specEntries, additionalParamsScore,
    additionalParamsTotalWeight, List.map_append, List.sum_append, List.map_cons,
    List.sum_cons, List.map_nil, List.sum_nil, foldl_add_map, List.map_map,
    Function.comp_def]
  apply key
  ring

/-- C3 counterexample: already at `p = maxValue` the normalized score
equals the weight exactly — `ParamScore(1, 1, 1) = 1` — so the score is
not strictly less than the weight for every finite `p`. -/
theorem paramScore_saturation_refuted :
    ParamScore 1 1 1 = 1 ∧ ¬ ParamScore 1 1 1 < 1 := by
  have h : ParamScore (1:ℝ) 1 1 = 1 := ParamScore_eq_weight 1 one_pos le_rfl
  exact ⟨h, by rw [h]; exact lt_irrefl 1⟩

/-- C3 (amended): for `0 ≤ p ≤ p'`, `weight > 0`, `maxValue > 0`:
`ParamScore` is non-decreasing in `p`, equals 0 at `p = 0`, and is at most
`weight`, the inequality being strict exactly when `p < maxValue` (for
`p ≥ maxValue` the score equals the weight). -/
theorem paramScore_props (p p' maxValue weight : ℝ)
    (hp : 0 ≤ p) (hpp : p ≤ p') (hw : 0 < weight) (hm : 0 < maxValue) :
    ParamScore p maxValue weight ≤ ParamScore p' maxValue weight ∧
    ParamScore 0 maxValue weight = 0 ∧
    ParamScore p maxValue weight ≤ weight ∧
    (ParamScore p maxValue weight < weight ↔ p < maxValue) := by
  refine ⟨ParamScore_mono hp hpp hm hw, ParamScore_zero _ _,
    ParamScore_le_weight hp hm hw, ?_, fun h => ParamScore_lt_weight hp h hw⟩
  intro hlt
  by_contra hge
  rw [ParamScore_eq_weight weight hm (not_lt.mp hge)] at hlt
  exact lt_irrefl weight hlt

/-- Witness for `paramScore_props` at `p = 0`, `p' = 1`, `maxValue = 2`,
`weight = 1`. -/
theorem paramScore_props_witness :
    ParamScore 0 2 1 ≤ ParamScore 1 2 1 ∧
    ParamScore 0 2 1 = 0 ∧
    ParamScore 0 2 1 ≤ 1 ∧
    (ParamScore 0 2 1 < 1 ↔ (0:ℝ) < 2) :=
  paramScore_props 0 1 2 1 (by norm_num) (by norm_num) (by norm_num) (by norm_num)

/-- C5: `totalCount` returns the `page` query parameter of the `last`
pagination link, and 0 — never an error — when the `last` link is absent,
the URL fails to parse, or the parameter is not an integer.  The first
three conjuncts cover the branches for every header; the remaining
conjuncts evaluate the spec's concrete cases, including a `page=42` last
link, a header with no `last` link, a non-integer page, and a URL that
Go `url.Parse` rejects. -/
theorem totalCount_last_page :
    (∀ h : String, (parseLinkHeader h).lookup "last" = none → totalCount h = 0) ∧
    (∀ (h u : String) (n : Int), (parseLinkHeader h).lookup "last" = some u →
      hasCtl u = false → goAtoi (queryGet (rawQueryOf u) "page") = some n →
      totalCount h = n) ∧
    (∀ h u : String, (parseLinkHeader h).lookup "last" = some u →
      (hasCtl u = true ∨ goAtoi (queryGet (rawQueryOf u) "page") = none) →
      totalCount h = 0) ∧
    totalCount "<https://api.github.com/repositories/1/contributors?per_page=1&page=2>; rel=\"next\", <https://api.github.com/repositories/1/contributors?per_page=1&page=42>; rel=\"last\"" = 42 ∧
    totalCount "<https://api.github.com/repositories/1/contributors?per_page=1&page=2>; rel=\"next\"" = 0 ∧
    totalCount "<https://api.github.com/repositories/1/tags?page=abc>; rel=\"last\"" = 0 ∧
    totalCount "<https://api\x01github.com/x?page=3>; rel=\"last\"" = 0 := by
  refine ⟨?_, ?_, ?_, by decide, by decide, by decide, by decide⟩
  · intro h hnone
    simp [totalCount, hnone]
  · intro h u n hsome hctl hpage
    simp [totalCount, hsome, hctl, hpage]
  · intro h u hsome hbad
    rcases hbad with hctl | hpage
    · simp [totalCount, hsome, hctl]
    · rcases hc : hasCtl u with _ | _
      · simp [totalCount, hsome, hc, hpage]
      · simp [totalCount, hsome, hc]

/-- C7: the four organisation-name spellings from the spec all normalize
to the canonical string `"acme"`. -/
theorem filterOrgName_acme :
    filterOrgName "Acme Inc." = "acme" ∧
    filterOrgName "ACME, LLC" = "acme" ∧
    filterOrgName "@Acme" = "acme" ∧
    filterOrgName "Acme " = "acme" := by
  refine ⟨by decide, by decide, by decide, by decide⟩

/-! ## utils.go: parseAdditionalParams and Go strconv.ParseFloat -/

/-- A parsed Go `float64` literal.  Finite literals are kept as their exact
rational value (the rounding of a decimal literal to the nearest binary64
is not modelled; no claim depends on that last-ulp difference). -/
inductive GoFloat where
  | finite (q : ℚ)
  | posInf
  | negInf
  | nan
deriving DecidableEq, Repr

/-- Consume a run of decimal digits, allowing single underscores between
digits as Go literals do.  Returns the accumulated value, the number of
digits consumed, and the rest of the input.  Stops (leaving the offending
characters in the rest) at anything else, including an underscore not
followed by a digit. -/
def digitsLoop : Nat → Nat → List Char → Nat × Nat × List Char
  | acc, n, [] => (acc, n, [])
  | acc, n, c :: cs =>
    if c.isDigit then digitsLoop (10 * acc + (c.toNat - 48)) (n + 1) cs
    else if c = '_' then
      match cs with
      | [] => (acc, n, [c])
      | d :: cs2 =>
        if d.isDigit then digitsLoop (10 * acc + (d.toNat - 48)) (n + 1) cs2
        else (acc, n, c :: d :: cs2)
    else (acc, n, c :: cs)

/-- A digit run must start with a digit (Go rejects a leading underscore). -/
def parseDigits (l : List Char) : Option (Nat × Nat × List Char) :=
  match l with
  | [] => none
  | c :: _ => if c.isDigit then some (digitsLoop 0 0 l) else none

/-- Strip an optional sign, returning whether a minus was seen. -/
def stripSign : List Char → Bool × List Char
  | '+' :: r => (false, r)
  | '-' :: r => (true, r)
  | r => (false, r)

/-- Go `strconv.ParseFloat(s, 64)` on the decimal grammar:
`[sign] (digits [. digits?] | . digits) [e|E [sign] digits]`, underscores
between digits, plus the case-insensitive specials `inf`, `infinity`,
`nan`.  (Go additionally accepts hexadecimal floats `0x...p...`; none of
the claims' inputs are hexadecimal and they are not modelled.) -/
def goParseFloat (s : String) : Option GoFloat :=
  match s.toList with
  | [] => none
  | cs =>
    let (neg, cs1) := stripSign cs
    let low := cs1.map Char.toLower
    if low = ['i', 'n', 'f'] ∨ low = ['i', 'n', 'f', 'i', 'n', 'i', 't', 'y'] then
      some (if neg then GoFloat.negInf else GoFloat.posInf)
    else if low = ['n', 'a', 'n'] then some GoFloat.nan
    else
      let mant : Option (ℚ × List Char) :=
        match parseDigits cs1 with
        | some (ip, _, r1) =>
          match r1 with
          | '.' :: r2 =>
            match parseDigits r2 with
            | some (fp, fc, r3) => some ((ip : ℚ) + (fp : ℚ) / (10 : ℚ) ^ fc, r3)
            | none => some ((ip : ℚ), r2)
          | _ => some ((ip : ℚ), r1)
        | none =>
          match cs1 with
          | '.' :: r2 =>
            match parseDigits r2 with
            | some (fp, fc, r3) => some ((fp : ℚ) / (10 : ℚ) ^ fc, r3)
            | none => none
          | _ => none
      match mant with
      | none => none
      | some (mq, rest) =>
        match rest with
        | [] => some (GoFloat.finite (if neg then -mq else mq))
        | e :: r4 =>
          if e = 'e' ∨ e = 'E' then
            let (eneg, r5) := stripSign r4
            match parseDigits r5 with
            | some (ev, _, r6) =>
              if r6 = [] then
                some (GoFloat.finite
                  ((if neg then -mq else mq) *
                    (10 : ℚ) ^ (if eneg then -(ev : ℤ) else (ev : ℤ))))
              else none
            | none => none
          else none

/-- `AdditionalParam` from score.go (three `float64` fields). -/
structure AdditionalParam where
  value : GoFloat
  weight : GoFloat
  maxThreshold : GoFloat
deriving DecidableEq, Repr

/-- The body of the `parseAdditionalParams` loop for a single string:
split on `:`, require exactly 3 segments, parse each as a float, with the
source's error messages. -/
def parseParam1 (p : String) : Except String AdditionalParam :=
  match goSplit ":" p with
  | [a, b, c] =>
    match goParseFloat a with
    | none => .error "param value should be type float64"
    | some v =>
      match goParseFloat b with
      | none => .error "param weight should be type float64"
      | some w =>
        match goParseFloat c with
        | none => .error "param max_threshold should be type float64"
        | some mt => .ok ⟨v, w, mt⟩
  | _ => .error "param string should have 3 values (value:weight:threshold)"

/-- The `for _, p := range params` loop of `parseAdditionalParams`:
first malformed string aborts with its error. -/
def parseParamsLoop : List String → Except String (List AdditionalParam)
  | [] => .ok []
  | p :: rest =>
    match parseParam1 p with
    | .error e => .error e
    | .ok ap =>
      match parseParamsLoop rest with
      | .error e => .error e
      | .ok aps => .ok (ap :: aps)

/-- `parseAdditionalParams` from utils.go (the leading and trailing
empty-list checks both produce `ok []`, which `[]` already is). -/
def parseAdditionalParams (params : List String) : Except String (List AdditionalParam) :=
  if params.isEmpty then .ok []
  else
    match parseParamsLoop params with
    | .error e => .error e
    | .ok aps => if aps.isEmpty then .ok [] else .ok aps

example : parseAdditionalParams ["0:1:0"] =
    .ok [⟨GoFloat.finite 0, GoFloat.finite 1, GoFloat.finite 0⟩] := by rfl
example : parseAdditionalParams ["1:2"] =
    .error "param string should have 3 values (value:weight:threshold)" := by rfl
example : parseAdditionalParams ["1:a:3"] =
    .error "param weight should be type float64" := by rfl
example : goParseFloat "1_2" = some (GoFloat.finite 12) := by rfl
example : (goParseFloat "1_2.5e-1").isSome = true := by rfl
example : goParseFloat "-Inf" = some GoFloat.negInf := by rfl
example : goParseFloat "1." = some (GoFloat.finite 1) := by rfl
example : goParseFloat "1e" = none := by rfl
example : (goParseFloat ".5").isSome = true := by rfl
example : goParseFloat "" = none := by rfl
example : goParseFloat "1__2" = none := by rfl

/-! ## score.go: RepositoryStats -/

/-- The error values of the package that the modelled paths can produce. -/
inductive GoErr where
  | invalidParamFormat (msg : String)
  | commitFrequencyPending
  | api (msg : String)
deriving DecidableEq, Repr

/-- Numeric value of a parsed float for the real-valued score model.
IEEE special values lie outside `ℝ`; the `FR` model below carries them,
and no claim feeds a special value into the real-valued score. -/
noncomputable def GoFloat.toReal : GoFloat → ℝ
  | .finite q => (q : ℝ)
  | _ => 0

noncomputable def AdditionalParam.toR (ap : AdditionalParam) : AdditionalParamR :=
  ⟨ap.value.toReal, ap.weight.toReal, ap.maxThreshold.toReal⟩

/-- `CommitFrequency` from utils.go as a function of the outcome of
`ListCommitActivity` (the weekly totals on success, the HTTP status code
and error on failure).  The second component is the `Error` field the
method writes — onto its value receiver. -/
noncomputable def CommitFrequencyM (r : Except (Nat × GoErr) (List Nat)) :
    ℝ × Option GoErr :=
  match r with
  | .error (status, e) =>
    if status = 202 then (0, some GoErr.commitFrequencyPending) else (0, some e)
  | .ok weekStats =>
    (goRound ((weekStats.sum : ℝ) / 52.0 * 10.0) / 10, none)

/-- The outcome of each provider method: the value it returns, paired with
the `Error` it assigns to its value receiver (a copy that the caller
discards).  `CreatedSince` and `Dependents` never assign `Error`.
`CommentFrequency` takes the updated-issue count as argument. -/
structure ProviderOutcomes where
  createdSince : ℤ
  updatedSince : ℤ × Option GoErr
  contributors : ℤ × Option GoErr
  contributorOrgs : List String × Option GoErr
  commitFrequency : ℝ × Option GoErr
  recentReleases : ℤ × Option GoErr
  closedIssues : ℤ × Option GoErr
  updatedIssues : ℤ × Option GoErr
  commentFrequency : ℤ → ℝ × Option GoErr
  dependents : ℤ

/-- The populated `Score` (repository identity and timestamp fields are
outside the model). -/
structure ScoreOut where
  metrics : MetricSet
  criticalityScore : ℝ

/-- `RepositoryStats` from score.go.  `ghrError` is the `Error` field of
the `GitHubRepository` value passed in (`nil` after a successful
`LoadRepository`).  Every provider method has a value receiver, so the
`Error` each one writes lands on a discarded copy: the model keeps only
the returned value (`.1`) of each outcome, exactly as the Go call
`score.X = ghr.X()` does, and the post-barrier check reads the caller's
own unchanged `ghrError`. -/
noncomputable def RepositoryStatsM (ghrError : Option GoErr)
    (prov : ProviderOutcomes) (params : List String) : Except GoErr ScoreOut :=
  match parseAdditionalParams params with
  | .error e => .error (.invalidParamFormat e)
  | .ok additionalParams =>
    let aps := additionalParams.map AdditionalParam.toR
    let m : MetricSet := {
      createdSince := prov.createdSince
      updatedSince := prov.updatedSince.1
      contributorCount := prov.contributors.1
      orgCount := (prov.contributorOrgs.1).length
      commitFrequency := prov.commitFrequency.1
      recentReleasesCount := prov.recentReleases.1
      closedIssuesCount := prov.closedIssues.1
      updatedIssuesCount := prov.updatedIssues.1
      commentFrequency := (prov.commentFrequency prov.updatedIssues.1).1
      dependentsCount := prov.dependents }
    match ghrError with
    | some e => .error e
    | none => .ok ⟨m, criticalityScore m aps⟩

/-- Boolean error test for `Except`. -/
def isErr {ε α : Type} : Except ε α → Bool
  | .error _ => true
  | .ok _ => false

theorem isErr_iff {ε α : Type} (x : Except ε α) :
    isErr x = true ↔ ∃ e, x = .error e := by
  cases x <;> simp [isErr]

/-- A malformed string (wrong segment count or an unparseable field) makes
`parseParam1` fail. -/
theorem parseParam1_error_of_bad {p : String}
    (hbad : (goSplit ":" p).length ≠ 3 ∨
      ∃ q ∈ goSplit ":" p, goParseFloat q = none) :
    isErr (parseParam1 p) = true := by
  unfold parseParam1
  split
  case h_1 a b c heq =>
    rcases hbad with hlen | ⟨q, hq, hqn⟩
    · rw [heq] at hlen; simp at hlen
    · rw [heq] at hq
      simp only [List.mem_cons, List.not_mem_nil, or_false] at hq
      rcases hq with rfl | rfl | rfl
      · simp [hqn, isErr]
      · cases hfa : goParseFloat a <;> simp [hfa, hqn, isErr]
      · cases hfa : goParseFloat a <;> cases hfb : goParseFloat b <;>
          simp [hfa, hfb, hqn, isErr]
  case h_2 => simp [isErr]

/-- The parse loop fails as soon as the list contains a malformed string. -/
theorem parseParamsLoop_error {params : List String} {p : String}
    (hp : p ∈ params) (hbad : isErr (parseParam1 p) = true) :
    isErr (parseParamsLoop params) = true := by
  induction params with
  | nil => cases hp
  | cons a rest ih =>
    cases h : parseParam1 a with
    | error e => simp [parseParamsLoop, h, isErr]
    | ok ap =>
      rcases List.mem_cons.mp hp with rfl | hmem
      · rw [h] at hbad; simp [isErr] at hbad
      · cases h2 : parseParamsLoop rest with
        | error e => simp [parseParamsLoop, h, h2, isErr]
        | ok aps =>
          have hr := ih hmem
          rw [h2] at hr; simp [isErr] at hr

/-- C6: additional parameters must be `value:weight:max_threshold` with all
three fields parseable floats; any list containing a malformed string makes
`RepositoryStats` fail with the invalid-param error, and the result is the
same whatever the providers would return — no provider outcome (hence no
goroutine, hence no network call) enters the failing computation. -/
theorem repositoryStats_rejects_malformed (params : List String) (p : String)
    (hp : p ∈ params)
    (hbad : (goSplit ":" p).length ≠ 3 ∨
      ∃ q ∈ goSplit ":" p, goParseFloat q = none) :
    ∃ msg, parseAdditionalParams params = .error msg ∧
      ∀ (e : Option GoErr) (prov prov' : ProviderOutcomes),
        RepositoryStatsM e prov params = .error (.invalidParamFormat msg) ∧
        RepositoryStatsM e prov params = RepositoryStatsM e prov' params := by
  have hloop : isErr (parseParamsLoop params) = true :=
    parseParamsLoop_error hp (parseParam1_error_of_bad hbad)
  obtain ⟨msg, hmsg⟩ := (isErr_iff _).mp hloop
  have hne : params.isEmpty = false := by
    cases params with
    | nil => cases hp
    | cons a rest => rfl
  have hparse : parseAdditionalParams params = .error msg := by
    simp [parseAdditionalParams, hne, hmsg]
  refine ⟨msg, hparse, fun e prov prov' => ?_⟩
  constructor
  · simp [RepositoryStatsM, hparse]
  · simp [RepositoryStatsM, hparse]

/-- Witness for `repositoryStats_rejects_malformed` at the spec's example
`"1:2"` (missing third segment). -/
theorem repositoryStats_rejects_malformed_witness :
    ∃ msg, parseAdditionalParams ["1:2"] = .error msg ∧
      ∀ (e : Option GoErr) (prov prov' : ProviderOutcomes),
        RepositoryStatsM e prov ["1:2"] = .error (.invalidParamFormat msg) ∧
        RepositoryStatsM e prov ["1:2"] = RepositoryStatsM e prov' ["1:2"] :=
  repositoryStats_rejects_malformed ["1:2"] "1:2" (by simp)
    (Or.inl (by decide))

/-- A run in which every provider succeeds except commit activity, whose
fetch reports HTTP 202 (GitHub is still computing the statistics). -/
noncomputable def provPending : ProviderOutcomes where
  createdSince := 10
  updatedSince := (0, none)
  contributors := (100, none)
  contributorOrgs := (["acme"], none)
  commitFrequency := CommitFrequencyM (.error (202, .api "202 Accepted"))
  recentReleases := (3, none)
  closedIssues := (20, none)
  updatedIssues := (30, none)
  commentFrequency := fun _ => (2, none)
  dependents := 0

/-- C2 is refuted by the code: the commit-frequency provider does record
`MetricComputationPending` — but only on its value-receiver copy, which
the caller discards, so `RepositoryStats` still returns a populated score
(with `CommitFrequency = 0`) and no error.  The spec's propagation policy
is the code's evident intent (the `ghr.Error != nil` check exists but can
never fire), so this is a defect of the code. -/
theorem repositoryStats_ignores_pending_error :
    provPending.commitFrequency.2 = some GoErr.commitFrequencyPending ∧
    ∃ s, RepositoryStatsM none provPending [] = .ok s ∧
      s.metrics.commitFrequency = 0 := by
  constructor
  · rfl
  · exact ⟨_, rfl, rfl⟩

/-! ## utils.go: UpdatedSince -/

/-- Go `math.Round` on an exact rational followed by the `int(...)`
conversion (the rounded value is integral, so the conversion is exact). -/
def goRoundQ (q : ℚ) : ℤ :=
  if 0 ≤ q then ⌊q + 1 / 2⌋ else ⌈q - 1 / 2⌉

/-- A list-commits entry: `commit.Commit.Author.Date` in nanoseconds. -/
structure Commit where
  date : ℤ

/-- `UpdatedSince` from utils.go as a function of the `ListCommits`
outcome.  `commits[0]` is read without an emptiness check: the `none`
result models the Go index-out-of-range panic.  On fetch error the method
returns 0 with the `Error` written to its (discarded) receiver copy. -/
def UpdatedSinceM (now : ℤ) (r : Except GoErr (List Commit)) :
    Option (ℤ × Option GoErr) :=
  match r with
  | .error e => some (0, some e)
  | .ok commits =>
    match commits[0]? with
    | none => none
    | some lastCommit =>
      some (goRoundQ (((now - lastCommit.date : ℤ) : ℚ) / 3600000000000 / 24 / 30), none)

/-- C9: reading `commits[0]` is in bounds exactly when the fetched commit
list is non-empty; for the empty list the operation panics. -/
theorem updatedSince_empty_panics (now : ℤ) (commits : List Commit) :
    UpdatedSinceM now (.ok commits) = none ↔ commits = [] := by
  cases commits <;> simp [UpdatedSinceM]

/-! ## utils.go: ContributorOrgs -/

/-- A contributor-list entry (only the ID is consulted). -/
structure Contributor where
  id : ℤ

/-- The page-accumulation loop of `ContributorOrgs`: append each fetched
page, stop after the final page (`resp.NextPage == 0`, i.e. no page
follows) or once more than `TopContributorCount` entries are gathered. -/
def gather : List Contributor → List (List Contributor) → List Contributor
  | acc, [] => acc
  | acc, page :: rest =>
    if rest.isEmpty then acc ++ page
    else if TopContributorCount < (acc ++ page).length then acc ++ page
    else gather (acc ++ page) rest

/-- Go slice expression `xs[:k]`: panics (here `none`) when `k` exceeds the
slice capacity.  `allContributors` is built by `append` from a nil slice,
whose capacity stays below `TopContributorCount = 15` whenever fewer than
15 contributors were returned, so the capacity check is modelled by the
length check. -/
def goSliceTo {α : Type} (xs : List α) (k : Nat) : Option (List α) :=
  if k ≤ xs.length then some (xs.take k) else none

/-- The per-user resolution loop: look up each contributor's company
(`none` models a `GetByID` error, which the loop skips), drop empty
companies, and collect distinct normalized names (the Go `map[string]bool`
keys). -/
def orgsOf (contribs : List Contributor) (company : ℤ → Option String) : List String :=
  contribs.foldl
    (fun orgs c =>
      match company c.id with
      | none => orgs
      | some comp => if comp = "" then orgs else orgs.insert (filterOrgName comp))
    []

/-- The `len > 5000` defensive branch: ten placeholder keys `string(i)`. -/
def placeholderOrgs : List String :=
  (List.range 10).map (fun i => String.mk [Char.ofNat i])

/-- `ContributorOrgs` from utils.go as a function of the fetched pages
(the fetch-error early return is not exercised by the claim) and the
per-user company lookup. -/
def ContributorOrgsM (pages : List (List Contributor))
    (company : ℤ → Option String) : Option (List String) :=
  let allContributors := gather [] pages
  if 5000 < allContributors.length then some placeholderOrgs
  else
    match goSliceTo allContributors TopContributorCount with
    | none => none
    | some top => some (orgsOf top company)

theorem gather_eq_flatten : ∀ (pages : List (List Contributor)) (acc : List Contributor),
    (acc ++ pages.flatten).length ≤ TopContributorCount →
    gather acc pages = acc ++ pages.flatten := by
  intro pages
  induction pages with
  | nil => intro acc _; simp [gather]
  | cons page rest ih =>
    intro acc hlen
    cases rest with
    | nil => simp [gather]
    | cons q qs =>
      have hflat : (page :: q :: qs).flatten = page ++ (q :: qs).flatten := rfl
      rw [hflat, ← List.append_assoc] at hlen ⊢
      have hsmall : ¬ TopContributorCount < (acc ++ page).length := by
        simp only [not_lt]
        calc (acc ++ page).length ≤ ((acc ++ page) ++ (q :: qs).flatten).length := by
              simp
          _ ≤ TopContributorCount := hlen
      simp only [gather, List.isEmpty_cons, if_false, hsmall, if_neg hsmall]
      exact ih (acc ++ page) hlen

theorem gather_cases : ∀ (pages : List (List Contributor)) (acc : List Contributor),
    gather acc pages = acc ++ pages.flatten ∨
    TopContributorCount < (gather acc pages).length := by
  intro pages
  induction pages with
  | nil => intro acc; left; simp [gather]
  | cons page rest ih =>
    intro acc
    cases rest with
    | nil => left; simp [gather]
    | cons q qs =>
      by_cases h : TopContributorCount < (acc ++ page).length
      · right
        simp only [gather, List.isEmpty_cons, if_false, if_pos h]
        simpa using h
      · have hstep : gather acc (page :: q :: qs) = gather (acc ++ page) (q :: qs) := by
          conv_lhs => rw [gather]
          rw [if_neg (by simp), if_neg h]
        rw [hstep]
        rcases ih (acc ++ page) with heq | hgt
        · left
          rw [heq]
          simp
        · right; exact hgt

/-- C8: `ContributorOrgs` slices `allContributors[:TopContributorCount]`
without a length check, so the run panics exactly when the repository's
contributor listing (all pages together) has fewer than 15 entries. -/
theorem contributorOrgs_slice_panics (pages : List (List Contributor))
    (company : ℤ → Option String) :
    ContributorOrgsM pages company = none ↔
      pages.flatten.length < TopContributorCount := by
  constructor
  · intro hnone
    rcases gather_cases pages [] with heq | hgt
    · by_contra hge
      simp only [not_lt] at hge
      simp only [ContributorOrgsM, heq, List.nil_append] at hnone
      split at hnone
      · exact absurd hnone (by simp)
      · rw [goSliceTo, if_pos hge] at hnone
        simp at hnone
    · simp only [ContributorOrgsM] at hnone
      split at hnone
      · exact absurd hnone (by simp)
      · rw [goSliceTo, if_pos (le_of_lt hgt)] at hnone
        simp at hnone
  · intro hlt
    have heq : gather [] pages = pages.flatten := by
      have := gather_eq_flatten pages [] (by simpa using le_of_lt hlt)
      simpa using this
    have hlt15 : pages.flatten.length < 15 := hlt
    have h5000 : ¬ 5000 < (gather [] pages).length := by
      rw [heq]
      omega
    simp only [ContributorOrgsM, if_neg h5000]
    rw [goSliceTo, if_neg (by rw [heq]; show ¬ 15 ≤ _; omega)]

/-! ## utils.go: RecentReleases -/

/-- `RecentReleases` from utils.go as a function of the clock, the
repository creation time, the creation times of all releases (the
pagination loop concatenates every page), and the outcome of the tags
fetch (its response's link header on success).  All times are nanosecond
counts.  `time.Since(t)/24.0` divides the nanosecond count by the
untyped constant 24 with Go `int64` (truncating) division — it is not a
day count.  Go integer division truncates toward zero (`Int.tdiv`). -/
def RecentReleasesM (now createdAt : ℤ) (releaseTimes : List ℤ)
    (tagsFetch : Except GoErr String) : ℤ × Option GoErr :=
  let total := (releaseTimes.filter
    (fun rc => ¬(((now - rc : ℤ) : ℚ) / 3600000000000 / 24 > (ReleaseLookbackDays : ℚ)))).length
  if total = 0 then
    let daysSinceCreation : ℤ := Int.tdiv (now - createdAt) 24
    if daysSinceCreation = 0 then (0, none)
    else
      match tagsFetch with
      | .error e => (0, some e)
      | .ok linkHeader =>
        (Int.tdiv (totalCount linkHeader) daysSinceCreation * (ReleaseLookbackDays : ℤ), none)
  else ((total : ℤ), none)

/-- The fallback estimate as the claim states it: total tag count divided
by the number of days since repository creation, scaled by the lookback
window length, with 0 when the day count is 0. -/
def recentReleasesClaimEstimate (now createdAt totalTags : ℤ) : ℤ :=
  let days := Int.tdiv (now - createdAt) 86400000000000
  if days = 0 then 0 else Int.tdiv totalTags days * (ReleaseLookbackDays : ℤ)

/-- Tags response of the C4 failing input: 400 tags in total. -/
def exTagsHeader : String :=
  "<https://api.github.com/repositories/1/tags?per_page=1&page=400>; rel=\"last\""

/-- C4: for a repository created exactly 365 days ago (now − created =
365·86400·10⁹ ns) with no in-window release and 400 tags, the claim's
fallback estimate is 400/365*365 = 365, but the code computes
`daysSinceCreation = (now−created)/24` in *nanoseconds/24* (not days), so
the estimate collapses to 0: the units slip contradicts the variable's own
name and the function's doc comment. -/
theorem recentReleases_fallback_units_bug :
    RecentReleasesM 31536000000000000 0 [] (.ok exTagsHeader) = (0, none) ∧
    totalCount exTagsHeader = 400 ∧
    recentReleasesClaimEstimate 31536000000000000 0 (totalCount exTagsHeader) = 365 ∧
    (RecentReleasesM 31536000000000000 0 [] (.ok exTagsHeader)).1 ≠
      recentReleasesClaimEstimate 31536000000000000 0 (totalCount exTagsHeader) := by
  refine ⟨by decide, by decide, by decide, by decide⟩

/-! ## Non-finite tracking model of the float score (for the NaN claim)

`FR` refines the real-valued model with the IEEE special values collapsed
into `none` ("non-finite": NaN or ±Inf).  Division by zero, the logarithm
of a non-positive number, and every operation on a non-finite operand
produce `none`, mirroring how Go float64 arithmetic produces and
propagates NaN/Inf on these paths (the distinction between NaN and ±Inf
is not needed: on the claimed path `0/0` the result is NaN). -/

def FR : Type := Option ℝ

noncomputable def frAdd : FR → FR → FR
  | some a, some b => some (a + b)
  | _, _ => none

noncomputable def frMul : FR → FR → FR
  | some a, some b => some (a * b)
  | _, _ => none

noncomputable def frDiv : FR → FR → FR
  | some a, some b => if b = 0 then none else some (a / b)
  | _, _ => none

noncomputable def frMax : FR → FR → FR
  | some a, some b => some (max a b)
  | _, _ => none

noncomputable def frLog : FR → FR
  | some a => if 0 < a then some (Real.log a) else none
  | none => none

noncomputable def goRoundF : FR → FR
  | some a => some (goRound a)
  | none => none

theorem frAdd_none_right (x : FR) : frAdd x none = none := by
  cases x <;> rfl

theorem frMul_none_left (y : FR) : frMul none y = none := by
  cases y <;> rfl

theorem frDiv_none_left (y : FR) : frDiv none y = none := by
  cases y <;> rfl

/-- `ParamScore` on tracked floats. -/
noncomputable def ParamScoreF (p maxValue weight : FR) : FR :=
  frMul (frDiv (frLog (frAdd (some 1) p)) (frLog (frAdd (some 1) (frMax p maxValue)))) weight

/-- The `CriticalityScore` formula of score.go on tracked floats: the
additional-parameter loop, then `Round(sum/totalWeight*100000)/100000`. -/
noncomputable def criticalityScoreF (m : MetricSet) (aps : List AdditionalParamR) : FR :=
  let apScore : FR := aps.foldl
    (fun acc ap =>
      frAdd acc (ParamScoreF (some ap.value) (some ap.maxThreshold) (some ap.weight)))
    (some 0)
  let totalWeight : ℝ := CreatedSinceWeight + UpdatedSinceWeight +
    ContributorCountWeight + OrgCountWeight +
    CommitFrequencyWeight + RecentReleasesWeight +
    ClosedIssuesWeight + UpdatedIssuesWeight +
    CommentFrequencyWeight + DependentsCountWeight +
    aps.foldl (fun acc ap => acc + ap.weight) 0
  frDiv
    (goRoundF (frMul
      (frDiv
        (frAdd (frAdd (frAdd (frAdd (frAdd (frAdd (frAdd (frAdd (frAdd (frAdd
          (ParamScoreF (some (m.createdSince : ℝ)) (some CreatedSinceThreshold) (some CreatedSinceWeight))
          (ParamScoreF (some (m.updatedSince : ℝ)) (some UpdatedSinceThreshold) (some UpdatedSinceWeight)))
          (ParamScoreF (some (m.contributorCount : ℝ)) (some ContributorCountThreshold) (some ContributorCountWeight)))
          (ParamScoreF (some (m.orgCount : ℝ)) (some OrgCountThreshold) (some OrgCountWeight)))
          (ParamScoreF (some m.commitFrequency) (some CommitFrequencyThreshold) (some CommitFrequencyWeight)))
          (ParamScoreF (some (m.recentReleasesCount : ℝ)) (some RecentReleasesThreshold) (some RecentReleasesWeight)))
          (ParamScoreF (some (m.closedIssuesCount : ℝ)) (some ClosedIssuesThreshold) (some ClosedIssuesWeight)))
          (ParamScoreF (some (m.updatedIssuesCount : ℝ)) (some UpdatedIssuesThreshold) (some UpdatedIssuesWeight)))
          (ParamScoreF (some m.commentFrequency) (some CommentFrequencyThreshold) (some CommentFrequencyWeight)))
          (ParamScoreF (some (m.dependentsCount : ℝ)) (some DependentsCountThreshold) (some DependentsCountWeight)))
          apScore)
        (some totalWeight))
      (some 100000)))
    (some 100000)

/-- The denominator's non-vanishing precondition for ParamScore. -/
theorem ParamScoreF_isSome (p mv w : ℝ) (hp : 0 ≤ p) :
    (ParamScoreF (some p) (some mv) (some w)).isSome ↔ 0 < max p mv := by
  have h1p : (0:ℝ) < 1 + p := by linarith
  have hmax0 : 0 ≤ max p mv := le_trans hp (le_max_left _ _)
  have h1m : (0:ℝ) < 1 + max p mv := by linarith
  simp only [ParamScoreF, frAdd, frMax, frLog, if_pos h1p, if_pos h1m, frDiv]
  rcases eq_or_lt_of_le hmax0 with heq | hpos
  · rw [if_pos (by rw [← heq]; norm_num)]
    simp [frMul_none_left, ← heq]
  · rw [if_neg (ne_of_gt (Real.log_pos (by linarith)))]
    simp [frMul, hpos]

/-- C10: `ParamScore`'s division is unguarded.  For `p ≥ 0` the result is
finite iff `max(p, maxValue) > 0`; at `p = 0, maxValue ≤ 0` the
denominator `ln(1+max(p,maxValue))` is 0, the quotient is non-finite
(0/0 = NaN), the caller-supplied parameter string `"0:1:0"` parses to
exactly that case, and the non-finite value propagates through the
aggregation into the final `CriticalityScore`. -/
theorem paramScore_zero_denominator_nan :
    (∀ p mv w : ℝ, 0 ≤ p →
      ((ParamScoreF (some p) (some mv) (some w)).isSome ↔ 0 < max p mv)) ∧
    (∀ mv w : ℝ, mv ≤ 0 →
      Real.log (1 + max (0:ℝ) mv) = 0 ∧
      ParamScoreF (some 0) (some mv) (some w) = none) ∧
    parseAdditionalParams ["0:1:0"] =
      .ok [⟨GoFloat.finite 0, GoFloat.finite 1, GoFloat.finite 0⟩] ∧
    criticalityScoreF ⟨0, 0, 0, 0, 0, 0, 0, 0, 0, 0⟩
      ([⟨GoFloat.finite 0, GoFloat.finite 1, GoFloat.finite 0⟩].map AdditionalParam.toR) =
      none := by
  have hiff := fun p mv w hp => ParamScoreF_isSome p mv w hp
  refine ⟨hiff, ?_, by rfl, ?_⟩
  · intro mv w hmv
    have hmax : max (0:ℝ) mv = 0 := max_eq_left hmv
    constructor
    · rw [hmax]
      norm_num
    · have h := hiff 0 mv w le_rfl
      refine Option.not_isSome_iff_eq_none.mp ?_
      rw [h, hmax]
      norm_num
  · have hap : ParamScoreF (some ((0:ℚ):ℝ)) (some ((0:ℚ):ℝ)) (some ((1:ℚ):ℝ)) = none := by
      have h := hiff ((0:ℚ):ℝ) ((0:ℚ):ℝ) ((1:ℚ):ℝ) (by norm_num)
      refine Option.not_isSome_iff_eq_none.mp ?_
      rw [h]
      simp
    simp only [criticalityScoreF, List.map_cons, List.map_nil, AdditionalParam.toR,
      GoFloat.toReal, List.foldl_cons, List.foldl_nil, hap, frAdd_none_right,
      frDiv_none_left, frMul_none_left, goRoundF]
